import Mathlib

/-!
Verification development for the spam-filter manager backend.

The entry validator (`backend/utils/validators.js` — `normalizeEntry`,
`validateSpamEntry` and the per-kind recognizers), the ownership guard and
authentication middleware (`backend/middleware/auth.js`), the auth routes
(token issuance, refresh, logout) and the spam-rules routes (add, bulk) are
embedded as executable Lean functions over `List Char` / `String`.

JavaScript strings are modelled as `List Char`; `String.prototype.trim` and
`String.prototype.toLowerCase` are modelled for the ASCII range (every input
the claims exercise is ASCII).  The regular expressions of the validator are
translated into structurally recursive recognizers over `List Char`.
-/

/-- JS strings as lists of characters. -/
abbrev Str := List Char

/-- Whitespace as removed by `String.prototype.trim` / matched by `\s`
(ASCII part: space, tab, LF, VT, FF, CR). -/
def isWS (c : Char) : Bool :=
  c.toNat = 32 || c.toNat = 9 || c.toNat = 10 || c.toNat = 11 ||
  c.toNat = 12 || c.toNat = 13

/-- ASCII lowercasing of one character, as `toLowerCase` acts on `A`-`Z`. -/
def lowerChar (c : Char) : Char :=
  if 65 ≤ c.toNat ∧ c.toNat ≤ 90 then Char.ofNat (c.toNat + 32) else c

/-- Model of `s.toLowerCase()`. -/
def lowerStr (s : Str) : Str := s.map lowerChar

/-- Model of `s.trim()`: drop whitespace from both ends. -/
def trimStr (s : Str) : Str := (s.dropWhile isWS).rdropWhile isWS

/-- Model of `s.startsWith(c)` for a one-character needle. -/
def startsWithChar (c : Char) : Str → Bool
  | [] => false
  | x :: _ => x == c

/-- Decimal digit `[0-9]`. -/
def isDigit (c : Char) : Bool := 48 ≤ c.toNat && c.toNat ≤ 57

/-- Alphanumeric `[a-zA-Z0-9]`. -/
def isAlnum (c : Char) : Bool :=
  isDigit c || (97 ≤ c.toNat && c.toNat ≤ 122) || (65 ≤ c.toNat && c.toNat ≤ 90)

/-- Hexadecimal digit `[0-9a-fA-F]`. -/
def isHexDigit (c : Char) : Bool :=
  isDigit c || (97 ≤ c.toNat && c.toNat ≤ 102) || (65 ≤ c.toNat && c.toNat ≤ 70)

/-- Word character `\w`, i.e. `[A-Za-z0-9_]`. -/
def isWordChar (c : Char) : Bool := isAlnum c || c.toNat = 95

/-- The email local-part charset of `isValidEmail`'s regex:
`[a-zA-Z0-9.!#$%&'*+/=?^_\x60\x7b|\x7d~-]` (codes listed to avoid quoting). -/
def isLocalChar (c : Char) : Bool :=
  isAlnum c ||
  [46, 33, 35, 36, 37, 38, 39, 42, 43, 47, 61, 63, 94, 95, 96,
   123, 124, 125, 126, 45].contains c.toNat

/-- Split a list at every occurrence of `sep` (like `String.split` on one
character); auxiliary accumulator version. -/
def splitOnAux (sep : Char) : Str → Str → List Str
  | [], acc => [acc.reverse]
  | c :: cs, acc =>
    if c == sep then acc.reverse :: splitOnAux sep cs []
    else splitOnAux sep cs (c :: acc)

/-- Split a list at every occurrence of `sep`. -/
def splitOnChar (sep : Char) (s : Str) : List Str := splitOnAux sep s []

/-- Split at the first occurrence of `sep`, if any. -/
def splitAtFirst (sep : Char) : Str → Option (Str × Str)
  | [] => none
  | c :: cs =>
    if c == sep then some ([], cs)
    else match splitAtFirst sep cs with
      | none => none
      | some (l, r) => some (c :: l, r)

/-- One DNS label of the validator's regexes:
`[a-zA-Z0-9]([a-zA-Z0-9-]{0,61}[a-zA-Z0-9])?` — equivalently 1–63 characters
over alnum/hyphen, first and last alphanumeric. -/
def isLabel (l : Str) : Bool :=
  !l.isEmpty && l.length ≤ 63 &&
  l.all (fun c => isAlnum c || c.toNat = 45) &&
  isAlnum (l.headD ' ') && isAlnum (l.getLastD ' ')

/-- A dot-separated nonempty sequence of labels: `label(\.label)*`. -/
def isLabelSeq (s : Str) : Bool := (splitOnChar '.' s).all isLabel

/-- Recognizer `isValidEmail` (validators.js line 104): local part (1+ chars of the
local charset), `@`, then a label sequence. -/
def isValidEmail (s : Str) : Bool :=
  match splitAtFirst '@' s with
  | none => false
  | some (loc, dom) => !loc.isEmpty && loc.all isLocalChar && isLabelSeq dom

/-- Recognizer `isValidDomain` (validators.js line 112): strip a leading `@` if present,
then a label sequence of total length ≤ 253. -/
def isValidDomain (s : Str) : Bool :=
  let clean := if startsWithChar '@' s then s.tail else s
  isLabelSeq clean && clean.length ≤ 253

/-- One IPv4 octet of the regex `25[0-5]|2[0-4][0-9]|[01]?[0-9][0-9]?`:
equivalently, 1–3 decimal digits with numeric value ≤ 255. -/
def isOctet (l : Str) : Bool :=
  !l.isEmpty && l.length ≤ 3 && l.all isDigit &&
  l.foldl (fun acc c => acc * 10 + (c.toNat - 48)) 0 ≤ 255

/-- Recognizer `isValidIPv4` (validators.js line 123): four dot-separated octets. -/
def isValidIPv4 (s : Str) : Bool :=
  let parts := splitOnChar '.' s
  parts.length == 4 && parts.all isOctet

/-- Recognizer `isValidIPv6` (validators.js line 131): eight colon-separated groups of
1–4 hex digits, or the literal `::` / `::1`. -/
def isValidIPv6 (s : Str) : Bool :=
  (s == [':', ':']) || (s == [':', ':', '1']) ||
  (let parts := splitOnChar ':' s
   parts.length == 8 &&
     parts.all (fun p => !p.isEmpty && p.length ≤ 4 && p.all isHexDigit))

/-- Recognizer `isValidIP`: IPv4 or IPv6. -/
def isValidIP (s : Str) : Bool := isValidIPv4 s || isValidIPv6 s

/-- The `(\*\.)?label(\.label)*` part of the wildcard regex. -/
def isWildDomain : Str → Bool
  | '*' :: '.' :: rest => isLabelSeq rest
  | s => isLabelSeq s

/-- Recognizer `isValidWildcard` (validators.js line 146): `(\*\.)?domain` or
`local-part@(\*\.)?domain`. -/
def isValidWildcard (s : Str) : Bool :=
  isWildDomain s ||
  (match splitAtFirst '@' s with
   | none => false
   | some (loc, dom) => !loc.isEmpty && loc.all isLocalChar && isWildDomain dom)

/-- Does `pat` occur as a contiguous substring? -/
def containsSub (pat : Str) : Str → Bool
  | [] => pat.isEmpty
  | s@(_ :: cs) => pat.isPrefixOf s || containsSub pat cs

/-- Does `f` accept some suffix of the list (i.e. does the anchored pattern
match at some position)? -/
def matchesSomewhere (f : Str → Bool) : Str → Bool
  | [] => f []
  | s@(_ :: cs) => f s || matchesSomewhere f cs

/-- Anchored match of `on\w+\s*=`: the suffix starts with `on`, then one or
more word characters, optional whitespace, then `=`. -/
def onHandlerAt : Str → Bool
  | 'o' :: 'n' :: c :: cs =>
    isWordChar c &&
    (match ((c :: cs).dropWhile isWordChar).dropWhile isWS with
     | '=' :: _ => true
     | _ => false)
  | _ => false

/-- Anchored match of `name\s*\(`: the literal `name`, optional whitespace,
then an opening parenthesis. -/
def fnCallAt (name : Str) (s : Str) : Bool :=
  name.isPrefixOf s &&
  (match (s.drop name.length).dropWhile isWS with
   | '(' :: _ => true
   | _ => false)

/-- The fixed denylist of `validateSpamEntry` (lines 201–212): does any of
the ten dangerous patterns match the normalized text? -/
def dangerMatch (n : Str) : Bool :=
  containsSub ('<' :: ("script").toList) n ||
  containsSub (("javascript:").toList) n ||
  matchesSomewhere onHandlerAt n ||
  matchesSomewhere (fnCallAt (("eval").toList)) n ||
  matchesSomewhere (fnCallAt (("expression").toList)) n ||
  matchesSomewhere (fnCallAt (("url").toList)) n ||
  containsSub (("@import").toList) n ||
  containsSub ('<' :: ("iframe").toList) n ||
  containsSub ('<' :: ("object").toList) n ||
  containsSub ('<' :: ("embed").toList) n

/-- The branch logic of `normalizeEntry` on the trimmed, lowercased text:
text containing `@` that does not start with `@` is returned as-is (email);
text containing `.` and no `@` gets an `@` prepended (domain marker, with
the redundant inner `startsWith` guard of the source kept); anything else
is returned as-is. -/
def normBody (n : Str) : Str :=
  if n.contains '@' && !startsWithChar '@' n then n
  else if n.contains '.' && !n.contains '@' then
    (if startsWithChar '@' n then n else '@' :: n)
  else n

/-- Function `normalizeEntry` (validators.js lines 155–175): the empty string maps to
itself (the `!entry` guard); otherwise trim, lowercase, and apply the
branch logic. -/
def normalizeEntry (s : Str) : Str :=
  if s.isEmpty then [] else normBody (lowerStr (trimStr s))

def msgRequired : String := "Entry is required"
def msgEmpty : String := "Entry cannot be empty"
def msgTooLong : String := "Entry is too long (maximum 255 characters)"
def msgDanger : String := "Entry contains potentially dangerous content"
def msgBadEmail : String := "Invalid email address format"
def msgBadDomain : String := "Invalid domain format"
def msgBadWildcard : String := "Invalid wildcard pattern"
def msgBadFormat : String :=
  "Invalid entry format. Must be email, domain, IP address, or wildcard pattern"

/-- The per-kind branch of `validateSpamEntry` (lines 221–248): email if the
normalized text contains `@`; else domain if it starts with `@` (dead: it
would then also contain `@`); else wildcard if it contains `*`; else IP; else
retry as a domain with `@` prepended; else the generic format error. -/
def kindErrsOf (n : Str) : List String :=
  if n.contains '@' then
    (if isValidEmail n then [] else [msgBadEmail])
  else if startsWithChar '@' n then
    (if isValidDomain n then [] else [msgBadDomain])
  else if n.contains '*' then
    (if isValidWildcard n then [] else [msgBadWildcard])
  else if isValidIP n then []
  else if isValidDomain ('@' :: n) then []
  else [msgBadFormat]

/-- The denylist step: the loop pushes the single danger message and breaks
at the first matching pattern. -/
def dangerErrsOf (n : Str) : List String :=
  if dangerMatch n then [msgDanger] else []

/-- Result shape of `validateSpamEntry`: the two early returns carry no
`normalized` field, hence `Option`. -/
structure ValidationResult where
  isValid : Bool
  errors : List String
  normalized : Option Str
deriving DecidableEq, Repr

/-- Function `validateSpamEntry` (validators.js lines 180–255). -/
def validateSpamEntry (entry : Str) : ValidationResult :=
  if entry.isEmpty then ⟨false, [msgRequired], none⟩
  else
    let n := normalizeEntry entry
    if n.length = 0 then ⟨false, [msgEmpty], none⟩
    else if 255 < n.length then ⟨false, [msgTooLong], none⟩
    else
      let errs := dangerErrsOf n ++ kindErrsOf n
      ⟨errs.isEmpty, errs, some n⟩

/-! ## Rule service (spam-rules routes) -/

/-- The two list kinds accepted by the routes (`listType`). -/
inductive ListKind where
  | whitelist
  | blacklist
deriving DecidableEq, Repr

/-- The per-mailbox allow/deny lists held by the external engine. -/
structure Rules where
  whitelist : List Str
  blacklist : List Str
deriving DecidableEq, Repr

def Rules.get (r : Rules) : ListKind → List Str
  | .whitelist => r.whitelist
  | .blacklist => r.blacklist

def Rules.put (r : Rules) : ListKind → List Str → Rules
  | .whitelist, l => { r with whitelist := l }
  | .blacklist, l => { r with blacklist := l }

/-- Modelled from the spec: the List Store Adapter (`addRule`), an external
collaborator specified only at interface level; modelled as an in-memory
store whose add appends the given entry and always succeeds (as the repo's
integration tests mock it). -/
def adapterAdd (r : Rules) (k : ListKind) (e : Str) : Rules :=
  r.put k (r.get k ++ [e])

/-- Modelled from the spec: the adapter's `removeRule`, removing one
occurrence of the entry and always succeeding. -/
def adapterRemove (r : Rules) (k : ListKind) (e : Str) : Rules :=
  r.put k ((r.get k).erase e)

/-- Outcome of the single-entry add route. -/
inductive AddOutcome where
  /-- 403: requested mailbox differs from the token's mailbox. -/
  | forbidden
  /-- 400 with the validator's error details. -/
  | invalidFmt (details : List String)
  /-- 409: entry already exists in the list. -/
  | conflict
  /-- 200: the value delegated to the adapter and echoed in the response. -/
  | added (value : Str)
  /-- 500 `Failed to add entry`, produced by the handler's catch block. -/
  | failedToAdd
deriving DecidableEq, Repr

/-- Faithful model of the SHIPPED add handler (`POST /`, spam-rules routes
lines 65–157).  Its first executable statement (line 71,
`const errors = validationResult(req)`) reads `validationResult` inside the
temporal dead zone of the `const validationResult` declared at line 97 of
the same block, so every invocation throws a ReferenceError which the catch
block (lines 145–155) converts into the 500 `Failed to add entry` response:
no request reaches validation, the duplicate check, or the adapter, and the
store is untouched.  (The enclosing module moreover fails to parse — the
bulk handler declares `const errors` twice — so the route is never even
registered; either way no add request is processed.) -/
def addHandler (userMailbox mailbox : String) (k : ListKind) (entry : Str)
    (r : Rules) : AddOutcome × Rules × Nat :=
  (.failedToAdd, r, 0)

/-- Explicitly disclosed model of the statement sequence the add handler's
lines 80–143 evidently INTEND (unreachable as shipped — see `addHandler`):
after the express-validator field checks, an ownership check,
`validateSpamEntry`, a duplicate check of the raw submitted entry against
the fetched list, then delegation of the raw entry to the adapter.  Returns
the outcome, the resulting rules, and how many times the adapter's add was
invoked. -/
def addHandlerSeq (userMailbox mailbox : String) (k : ListKind) (entry : Str)
    (r : Rules) : AddOutcome × Rules × Nat :=
  if mailbox ≠ userMailbox then (.forbidden, r, 0)
  else if !(validateSpamEntry entry).isValid then
    (.invalidFmt (validateSpamEntry entry).errors, r, 0)
  else if (r.get k).contains entry then (.conflict, r, 0)
  else (.added entry, adapterAdd r k entry, 1)

/-- One bulk operation `{action, listType, entry}`. -/
inductive BulkAction where
  | add
  | remove
deriving DecidableEq, Repr

structure BulkOp where
  action : BulkAction
  kind : ListKind
  entry : Str
deriving DecidableEq, Repr

/-- A `results` item `{action, listType, entry, status: success}`. -/
structure BulkSuccess where
  action : BulkAction
  kind : ListKind
  entry : Str
deriving DecidableEq, Repr

/-- An `errors` item `{entry, error, details}`. -/
structure BulkErr where
  entry : Str
  details : List String
deriving DecidableEq, Repr

/-- Accumulated state of the bulk loop. -/
structure BulkOutput where
  results : List BulkSuccess
  errors : List BulkErr
  rules : Rules
deriving DecidableEq, Repr

/-- One iteration of the bulk loop (lines 275–316): validate the entry; on
failure append to `errors` and continue; on success perform the adapter call
(modelled as always succeeding) and append to `results`. -/
def bulkStep (acc : BulkOutput) (op : BulkOp) : BulkOutput :=
  if !(validateSpamEntry op.entry).isValid then
    { acc with errors := acc.errors ++ [⟨op.entry, (validateSpamEntry op.entry).errors⟩] }
  else
    { acc with
      rules :=
        match op.action with
        | .add => adapterAdd acc.rules op.kind op.entry
        | .remove => adapterRemove acc.rules op.kind op.entry,
      results := acc.results ++ [⟨op.action, op.kind, op.entry⟩] }

inductive BulkResponse where
  | forbidden
  | completed (out : BulkOutput)
deriving DecidableEq, Repr

/-- The statement sequence of the bulk handler (`POST /bulk`, lines
244–339): one ownership check for the whole batch, then the operations are
folded in input order.  (As shipped the handler declares `const errors`
twice in one block — the express-validator result at line 252 and the
accumulator at line 273 — which is a JavaScript syntax error; the embedding
reads them as the two distinct bindings the code evidently intends.) -/
def bulkHandlerSeq (userMailbox mailbox : String) (ops : List BulkOp)
    (r : Rules) : BulkResponse :=
  if mailbox ≠ userMailbox then .forbidden
  else .completed (ops.foldl bulkStep ⟨[], [], r⟩)

/-! ## Ownership guard and token registry -/

inductive OwnershipResult where
  | allow
  /-- 403, with the requested and authorized mailboxes that are logged. -/
  | deny (loggedRequested loggedUser : String)
deriving DecidableEq, Repr

/-- Guard `verifyOwnership` (auth.js lines 125–143): `requested` is
`req.body.mailbox || req.query.mailbox`, with `""` standing for an absent or
empty (falsy) value; deny exactly when it is truthy and differs from the
token's mailbox by string comparison, logging both values. -/
def verifyOwnership (requested userMailbox : String) : OwnershipResult :=
  if requested ≠ "" ∧ requested ≠ userMailbox then .deny requested userMailbox
  else .allow

/-- Registry value: `{email, mailbox, createdAt, expiresAt}` (times in ms). -/
structure TokenData where
  email : String
  mailbox : String
  createdAt : Nat
  expiresAt : Nat
deriving DecidableEq, Repr

/-- A JS `Map` keyed by token value, as an association list with unique
keys (later `set`s first delete the key, so `get` agrees with `Map`). -/
abbrev TokenStore := List (String × TokenData)

def mapGet (m : TokenStore) (k : String) : Option TokenData :=
  (m.find? (fun p => p.1 == k)).map (·.2)

def mapDelete (m : TokenStore) (k : String) : TokenStore :=
  m.filter (fun p => !(p.1 == k))

def mapSet (m : TokenStore) (k : String) (v : TokenData) : TokenStore :=
  mapDelete m k ++ [(k, v)]

/-- Twenty-four hours in milliseconds — the fixed token lifetime. -/
def dayMs : Nat := 24 * 60 * 60 * 1000

inductive RefreshResult where
  /-- 200: the newly issued token (with `expiresIn: 24h`). -/
  | refreshed (token : String)
  /-- 401 `Invalid or expired token`. -/
  | invalidOrExpired
deriving DecidableEq, Repr

/-- The `POST /refresh` handler (auth routes lines 185–223): look the token
up in the route module's `tokenStore`; absent or expired tokens are deleted
and rejected; otherwise the old entry is deleted and a fresh token
(`newTok`, the opaque output of `generateToken`) is registered with the same
principal and a fresh 24-hour window. -/
def refreshHandler (store : TokenStore) (tok newTok : String) (now : Nat) :
    RefreshResult × TokenStore :=
  match mapGet store tok with
  | none => (.invalidOrExpired, mapDelete store tok)
  | some d =>
    if d.expiresAt < now then (.invalidOrExpired, mapDelete store tok)
    else
      (.refreshed newTok,
       mapSet (mapDelete store tok) newTok
         { d with createdAt := now, expiresAt := now + dayMs })

/-- The combined mutable state: the auth route module's `tokenStore`
(part of the routes file, line 12) and the authentication middleware's own
`tokenStore` (auth.js line 5) — two distinct `Map`s. -/
structure AuthState where
  routeStore : TokenStore
  mwStore : TokenStore
deriving DecidableEq, Repr

def initialAuthState : AuthState := ⟨[], []⟩

/-- The operations that write a token registry: issuance by either
verification path, refresh, and logout.  Token values are opaque inputs
(outputs of `generateToken`). -/
inductive AuthOp where
  /-- Success path of `POST /verify-plesk-session`: registers
  `{email: mailbox, mailbox, createdAt: now, expiresAt: now + 24h}`. -/
  | issueSession (tok : String) (mailbox : String) (now : Nat)
  /-- Success path of `POST /verify-mailbox` (where `email = mailbox` was
  already enforced). -/
  | issueMailbox (tok : String) (email mailbox : String) (now : Nat)
  /-- `POST /refresh`. -/
  | refreshTok (old new : String) (now : Nat)
  /-- `POST /logout`: deletes the entry if present, always succeeds. -/
  | logout (tok : String)
deriving DecidableEq, Repr

/-- Effect of one operation on the two stores.  Every write goes to the
route module's `tokenStore`; none of the handlers references the
middleware's map. -/
def applyAuthOp (s : AuthState) : AuthOp → AuthState
  | .issueSession tok mailbox now =>
    { s with routeStore := mapSet s.routeStore tok ⟨mailbox, mailbox, now, now + dayMs⟩ }
  | .issueMailbox tok email mailbox now =>
    { s with routeStore := mapSet s.routeStore tok ⟨email, mailbox, now, now + dayMs⟩ }
  | .refreshTok old new now =>
    { s with routeStore := (refreshHandler s.routeStore old new now).2 }
  | .logout tok =>
    { s with routeStore := mapDelete s.routeStore tok }

def runAuthOps (ops : List AuthOp) : AuthState :=
  ops.foldl applyAuthOp initialAuthState

inductive MwResult where
  /-- 403 `Invalid token`: `jwt.verify` threw. -/
  | invalidJwt
  /-- 401 `Token expired or invalid`: absent from the middleware's registry
  or past its registry expiry. -/
  | expiredOrInvalid
  /-- Request proceeds with the decoded principal. -/
  | authed (email mailbox : String)
deriving DecidableEq, Repr

/-- Middleware `authenticateToken` (auth.js lines 10–50) for a request carrying
a bearer token: `jwtDecode` abstracts `jwt.verify` (`none` when signature or
`exp` verification throws, otherwise the decoded principal); then the token
must be present and unexpired in the MIDDLEWARE's own `tokenStore`. -/
def authenticateToken (jwtDecode : String → Option (String × String))
    (s : AuthState) (tok : String) (now : Nat) : MwResult :=
  match jwtDecode tok with
  | none => .invalidJwt
  | some (email, mailbox) =>
    match mapGet s.mwStore tok with
    | none => .expiredOrInvalid
    | some d =>
      if d.expiresAt < now then .expiredOrInvalid else .authed email mailbox

/-! ## Helper lemmas -/

theorem mapGet_cons_self {p : String × TokenData} {t : TokenStore} {k : String}
    (h : p.1 = k) : mapGet (p :: t) k = some p.2 := by
  unfold mapGet
  rw [List.find?_cons_of_pos _ (by simpa using h)]
  rfl

theorem mapGet_cons_ne {p : String × TokenData} {t : TokenStore} {k : String}
    (h : p.1 ≠ k) : mapGet (p :: t) k = mapGet t k := by
  unfold mapGet
  rw [List.find?_cons_of_neg]
  simp [h]

theorem mapDelete_cons_self {p : String × TokenData} {t : TokenStore}
    {k : String} (h : p.1 = k) : mapDelete (p :: t) k = mapDelete t k := by
  unfold mapDelete
  rw [List.filter_cons]
  simp [h]

theorem mapDelete_cons_ne {p : String × TokenData} {t : TokenStore}
    {k : String} (h : p.1 ≠ k) : mapDelete (p :: t) k = p :: mapDelete t k := by
  unfold mapDelete
  rw [List.filter_cons]
  simp [h]

theorem mapGet_delete_self (m : TokenStore) (k : String) :
    mapGet (mapDelete m k) k = none := by
  induction m with
  | nil => rfl
  | cons p t ih =>
    by_cases h : p.1 = k
    · rw [mapDelete_cons_self h]
      exact ih
    · rw [mapDelete_cons_ne h, mapGet_cons_ne h]
      exact ih

theorem mapGet_delete_ne (m : TokenStore) (k k' : String) (h : k' ≠ k) :
    mapGet (mapDelete m k) k' = mapGet m k' := by
  induction m with
  | nil => rfl
  | cons p t ih =>
    by_cases hp : p.1 = k
    · rw [mapDelete_cons_self hp, mapGet_cons_ne (by rw [hp]; exact Ne.symm h)]
      exact ih
    · by_cases hp' : p.1 = k'
      · rw [mapDelete_cons_ne hp, mapGet_cons_self hp', mapGet_cons_self hp']
      · rw [mapDelete_cons_ne hp, mapGet_cons_ne hp', mapGet_cons_ne hp']
        exact ih

theorem mapGet_append (m1 m2 : TokenStore) (k : String) :
    mapGet (m1 ++ m2) k = (mapGet m1 k).or (mapGet m2 k) := by
  unfold mapGet
  rw [List.find?_append]
  cases List.find? (fun p => p.1 == k) m1 <;> simp

theorem mapGet_set_self (m : TokenStore) (k : String) (v : TokenData) :
    mapGet (mapSet m k v) k = some v := by
  unfold mapSet
  rw [mapGet_append, mapGet_delete_self]
  exact mapGet_cons_self rfl

theorem mapGet_set_ne (m : TokenStore) (k k' : String) (v : TokenData)
    (h : k' ≠ k) : mapGet (mapSet m k v) k' = mapGet (mapDelete m k) k' := by
  unfold mapSet
  rw [mapGet_append]
  have h1 : mapGet [(k, v)] k' = none := by
    rw [mapGet_cons_ne (Ne.symm h)]
    rfl
  rw [h1]
  cases mapGet (mapDelete m k) k' <;> rfl

theorem mwStore_foldl (s : AuthState) (ops : List AuthOp) :
    (ops.foldl applyAuthOp s).mwStore = s.mwStore := by
  induction ops generalizing s with
  | nil => rfl
  | cons op t ih =>
    rw [List.foldl_cons, ih]
    cases op <;> rfl

theorem mwStore_runAuthOps (ops : List AuthOp) :
    (runAuthOps ops).mwStore = [] :=
  mwStore_foldl initialAuthState ops

theorem get_adapterAdd (r : Rules) (k : ListKind) (e : Str) :
    (adapterAdd r k e).get k = r.get k ++ [e] := by
  cases k <;> rfl

theorem contains_append_self (l : List Str) (e : Str) :
    (l ++ [e]).contains e = true := by
  simp [List.contains]

theorem kindErrs_cases (n : Str) :
    kindErrsOf n = [] ∨ kindErrsOf n = [msgBadEmail] ∨
    kindErrsOf n = [msgBadDomain] ∨ kindErrsOf n = [msgBadWildcard] ∨
    kindErrsOf n = [msgBadFormat] := by
  unfold kindErrsOf
  split_ifs <;> tauto

/-! ## Claims -/

/-- C1: the spec says `validate("EXAMPLE.com")` is valid with kind Domain
and normalized `"@example.com"`.  The code normalizes to `"@example.com"`
but then routes every string containing `@` into the email branch (the
`startsWith('@')` domain branch is unreachable), so the entry is REJECTED
with `Invalid email address format` — contradicting the repo's own unit
test `should validate domains without @ prefix`. -/
theorem c1_spec :
    validateSpamEntry (("EXAMPLE.com").toList) =
      ⟨false, [msgBadEmail], some (("@example.com").toList)⟩ ∧
    isValidDomain (("@example.com").toList) = true := by
  constructor <;> decide

/-- C3: the spec says dotted-quad IPv4 strings are accepted as IPAddress.
The IPv4 recognizer itself accepts `192.168.1.1`, but `normalizeEntry`
first prepends the domain marker `@` (the string contains `.` and no `@`),
after which the email branch rejects it — contradicting the repo's own unit
test `should validate IPv4 addresses`. -/
theorem c3_spec :
    isValidIPv4 (("192.168.1.1").toList) = true ∧
    validateSpamEntry (("192.168.1.1").toList) =
      ⟨false, [msgBadEmail], some (("@192.168.1.1").toList)⟩ := by
  constructor <;> decide

/-- C2: tokens are registered in the auth route module's `tokenStore`, but
the middleware consults its own distinct `tokenStore` that no issuance,
refresh or logout ever writes; hence the middleware's registry stays empty
and every issued, unexpired, well-signed token is rejected with the 401
`Token expired or invalid` outcome. -/
theorem c2_spec (ops : List AuthOp) (tok : String) (d : TokenData)
    (now : Nat) (jwtDecode : String → Option (String × String))
    (email mailbox : String)
    (hissued : mapGet (runAuthOps ops).routeStore tok = some d)
    (hfresh : now ≤ d.expiresAt)
    (hjwt : jwtDecode tok = some (email, mailbox)) :
    (runAuthOps ops).mwStore = [] ∧
    authenticateToken jwtDecode (runAuthOps ops) tok now = .expiredOrInvalid := by
  have hmw := mwStore_runAuthOps ops
  refine ⟨hmw, ?_⟩
  unfold authenticateToken
  rw [hjwt, hmw]
  rfl

/-- C2 witness: a token issued by the Plesk-session path at time 0,
presented at time 5 with a succeeding JWT decode, is rejected. -/
theorem c2_witness :
    authenticateToken (fun _ => some ("a@x.com", "a@x.com"))
      (runAuthOps [.issueSession "t1" "a@x.com" 0]) "t1" 5 = .expiredOrInvalid :=
  (c2_spec [.issueSession "t1" "a@x.com" 0] "t1"
    ⟨"a@x.com", "a@x.com", 0, 86400000⟩ 5 (fun _ => some ("a@x.com", "a@x.com"))
    "a@x.com" "a@x.com" (by decide) (by decide) rfl).2

/-- C7: with a (truthy) requested mailbox present, the ownership check
allows exactly when it equals the principal's mailbox by plain string
comparison, and on mismatch denies while logging both mailboxes. -/
theorem c7_spec (req user : String) (h : req ≠ "") :
    (verifyOwnership req user = .allow ↔ req = user) ∧
    (req ≠ user → verifyOwnership req user = .deny req user) := by
  unfold verifyOwnership
  constructor
  · constructor
    · intro hall
      by_contra hne
      simp [h, hne] at hall
    · intro he
      simp [he]
  · intro hne
    simp [h, hne]

/-- C7 witness: `b@x.com` requested against principal `a@x.com` is denied
with both mailboxes logged; the same value is allowed. -/
theorem c7_witness :
    verifyOwnership "b@x.com" "a@x.com" = .deny "b@x.com" "a@x.com" ∧
    verifyOwnership "a@x.com" "a@x.com" = .allow :=
  ⟨(c7_spec "b@x.com" "a@x.com" (by decide)).2 (by decide),
   (c7_spec "a@x.com" "a@x.com" (by decide)).1.mpr rfl⟩

/-- C8: refresh of a registered, unexpired token deletes the old registry
entry and registers the fresh token with the same principal and a fresh
24-hour window (`now + 24h`); an absent or expired token yields the
`Invalid or expired token` outcome. -/
theorem c8_spec (store : TokenStore) (tok newTok : String) (now : Nat) :
    (∀ d, mapGet store tok = some d → now ≤ d.expiresAt →
      refreshHandler store tok newTok now =
        (.refreshed newTok,
         mapSet (mapDelete store tok) newTok
           ⟨d.email, d.mailbox, now, now + dayMs⟩) ∧
      mapGet (refreshHandler store tok newTok now).2 newTok =
        some ⟨d.email, d.mailbox, now, now + dayMs⟩ ∧
      (newTok ≠ tok → mapGet (refreshHandler store tok newTok now).2 tok = none)) ∧
    (mapGet store tok = none →
      (refreshHandler store tok newTok now).1 = .invalidOrExpired) ∧
    (∀ d, mapGet store tok = some d → d.expiresAt < now →
      (refreshHandler store tok newTok now).1 = .invalidOrExpired) := by
  refine ⟨?_, ?_, ?_⟩
  · intro d hd hfresh
    obtain ⟨de, dm, dc, dx⟩ := d
    have hlt : ¬dx < now := Nat.not_lt.mpr hfresh
    have heq : refreshHandler store tok newTok now =
        (.refreshed newTok,
         mapSet (mapDelete store tok) newTok ⟨de, dm, now, now + dayMs⟩) := by
      unfold refreshHandler
      rw [hd]
      simp [hlt]
    refine ⟨heq, ?_, ?_⟩
    · rw [heq]
      exact mapGet_set_self ..
    · intro hne
      rw [heq]
      show mapGet (mapSet (mapDelete store tok) newTok _) tok = none
      rw [mapGet_set_ne _ _ _ _ (Ne.symm hne),
        mapGet_delete_ne _ _ _ (Ne.symm hne)]
      exact mapGet_delete_self ..
  · intro hd
    unfold refreshHandler
    rw [hd]
  · intro d hd hexp
    unfold refreshHandler
    rw [hd]
    simp [hexp]

/-- C8 witness: a token issued at T = 0 (expiry 86400000 ms) refreshed at
T+23h = 82800000 succeeds and the new token is valid until
T+23h+24h = 169200000; at T+24h+1ms the same refresh is rejected. -/
theorem c8_witness :
    (refreshHandler [("t0", ⟨"a@x.com", "a@x.com", 0, 86400000⟩)]
        "t0" "t1" 82800000).1 = .refreshed "t1" ∧
    mapGet (refreshHandler [("t0", ⟨"a@x.com", "a@x.com", 0, 86400000⟩)]
        "t0" "t1" 82800000).2 "t1" =
      some ⟨"a@x.com", "a@x.com", 82800000, 169200000⟩ ∧
    mapGet (refreshHandler [("t0", ⟨"a@x.com", "a@x.com", 0, 86400000⟩)]
        "t0" "t1" 82800000).2 "t0" = none ∧
    (refreshHandler [("t0", ⟨"a@x.com", "a@x.com", 0, 86400000⟩)]
        "t0" "t1" 86400001).1 = .invalidOrExpired := by
  have hs := (c8_spec [("t0", ⟨"a@x.com", "a@x.com", 0, 86400000⟩)]
    "t0" "t1" 82800000).1 ⟨"a@x.com", "a@x.com", 0, 86400000⟩ (by decide) (by decide)
  have hf := (c8_spec [("t0", ⟨"a@x.com", "a@x.com", 0, 86400000⟩)]
    "t0" "t1" 86400001).2.2 ⟨"a@x.com", "a@x.com", 0, 86400000⟩ (by decide) (by decide)
  refine ⟨?_, ?_, ?_, hf⟩
  · rw [hs.1]
  · exact hs.2.1
  · exact hs.2.2 (by decide)

/-- C4: as shipped no Add ever succeeds and no Conflict is ever produced —
every request takes the handler's catch path (500 `Failed to add entry`,
list unchanged, adapter never invoked), so the claimed
first-success/second-Conflict behavior cannot occur.  The statement
sequence the handler intends does realize the claim's scenario for a
resubmission of the identical entry: the first call succeeds, the second
yields Conflict with the list unchanged, and the adapter's add is invoked
exactly once across the two calls.  (Its duplicate check compares raw
submitted strings, so it covers normalized-equal entries only when the
submissions are string-identical, as in the repo's own duplicate test.) -/
theorem c4_spec :
    (∀ (u m : String) (k : ListKind) (e : Str) (r : Rules),
      addHandler u m k e r = (.failedToAdd, r, 0)) ∧
    addHandlerSeq "a@x.com" "a@x.com" .whitelist (("user@example.com").toList)
        ⟨[], []⟩ =
      (.added (("user@example.com").toList),
       ⟨[("user@example.com").toList], []⟩, 1) ∧
    addHandlerSeq "a@x.com" "a@x.com" .whitelist (("user@example.com").toList)
        ⟨[("user@example.com").toList], []⟩ =
      (.conflict, ⟨[("user@example.com").toList], []⟩, 0) :=
  ⟨fun _ _ _ _ _ => rfl, by decide, by decide⟩

/-- C5: as shipped nothing is ever delegated to the adapter or stored (no
Add gets past the handler's first statement — see `addHandler`), so no
stored entry exists, normalized or not; and even the intended statement
sequence delegates and stores the RAW submission (line 118 passes `entry`,
not the validator's normalized form): submitting `" User@example.com"`
passes validation with normalized form `user@example.com`, yet the intended
sequence would store the raw string, which differs from that normalized
form. -/
theorem c5_spec :
    (∀ (u m : String) (k : ListKind) (e : Str) (r : Rules),
      addHandler u m k e r = (.failedToAdd, r, 0)) ∧
    (validateSpamEntry ((" User@example.com").toList)).isValid = true ∧
    (validateSpamEntry ((" User@example.com").toList)).normalized =
      some (("user@example.com").toList) ∧
    addHandlerSeq "a@x.com" "a@x.com" .whitelist ((" User@example.com").toList)
        ⟨[], []⟩ =
      (.added ((" User@example.com").toList),
       ⟨[(" User@example.com").toList], []⟩, 1) ∧
    (" User@example.com").toList ≠ ("user@example.com").toList :=
  ⟨fun _ _ _ _ _ => rfl, by decide, by decide, by decide, by decide⟩

/-- C9: in a 3-operation bulk batch whose 2nd entry is malformed, the
handler's written statement sequence produces 2 results and 1 error item
referencing the malformed entry, and both valid add operations are applied
to the store in input order — no operation's failure affects the others. -/
theorem c9_spec (u : String) (r : Rules) (op1 op2 op3 : BulkOp)
    (h1 : (validateSpamEntry op1.entry).isValid = true)
    (h1a : op1.action = .add)
    (h2 : (validateSpamEntry op2.entry).isValid = false)
    (h3 : (validateSpamEntry op3.entry).isValid = true)
    (h3a : op3.action = .add) :
    bulkHandlerSeq u u [op1, op2, op3] r =
      .completed
        ⟨[⟨.add, op1.kind, op1.entry⟩, ⟨.add, op3.kind, op3.entry⟩],
         [⟨op2.entry, (validateSpamEntry op2.entry).errors⟩],
         adapterAdd (adapterAdd r op1.kind op1.entry) op3.kind op3.entry⟩ := by
  unfold bulkHandlerSeq
  simp only [ne_eq, not_true_eq_false, if_false, ite_false]
  simp [bulkStep, h1, h2, h3, h1a, h3a]

/-- C9 witness: the concrete batch add `a@b.com` / add `!!invalid!!` /
add `c@d.com` yields results for operations 1 and 3 and one error item for
the malformed entry. -/
theorem c9_witness :
    bulkHandlerSeq "a@x.com" "a@x.com"
      [⟨.add, .whitelist, ("a@b.com").toList⟩,
       ⟨.add, .whitelist, ("!!invalid!!").toList⟩,
       ⟨.add, .blacklist, ("c@d.com").toList⟩] ⟨[], []⟩ =
      .completed
        ⟨[⟨.add, .whitelist, ("a@b.com").toList⟩,
          ⟨.add, .blacklist, ("c@d.com").toList⟩],
         [⟨("!!invalid!!").toList,
           (validateSpamEntry (("!!invalid!!").toList)).errors⟩],
         adapterAdd (adapterAdd ⟨[], []⟩ .whitelist (("a@b.com").toList))
           .blacklist (("c@d.com").toList)⟩ :=
  c9_spec "a@x.com" ⟨[], []⟩ _ _ _ (by decide) rfl (by decide) (by decide) rfl

/-- C6 counterexample: `<script>alert(1)</script>` matches the denylist,
yet the validator does not stop at that single error — the per-kind branch
still runs and appends the generic format error, so the error list has two
entries, not exactly one. -/
theorem c6_counterexample :
    dangerMatch (normalizeEntry (("<script>alert(1)</script>").toList)) = true ∧
    (validateSpamEntry (("<script>alert(1)</script>").toList)).errors =
      [msgDanger, msgBadFormat] := by
  refine ⟨by decide, by decide⟩

/-- C6 (amended): when the normalized text (nonempty, within the length
cap) matches a denylist pattern, the entry is rejected and the denylist
contributes exactly one error, placed first; the per-kind branch may append
at most one further format error, so the list has one or two entries. -/
theorem c6_spec (e : Str) (hne : e.isEmpty = false)
    (hlen0 : (normalizeEntry e).length ≠ 0)
    (hlen : (normalizeEntry e).length ≤ 255)
    (hdanger : dangerMatch (normalizeEntry e) = true) :
    (validateSpamEntry e).isValid = false ∧
    (validateSpamEntry e).errors = msgDanger :: kindErrsOf (normalizeEntry e) ∧
    (validateSpamEntry e).errors.count msgDanger = 1 ∧
    ((validateSpamEntry e).errors.length = 1 ∨
     (validateSpamEntry e).errors.length = 2) := by
  have hnlt : ¬255 < (normalizeEntry e).length := Nat.not_lt.mpr hlen
  have hcount : (kindErrsOf (normalizeEntry e)).count msgDanger = 0 := by
    rcases kindErrs_cases (normalizeEntry e) with h | h | h | h | h <;>
      rw [h] <;> decide
  have hlenk : (kindErrsOf (normalizeEntry e)).length = 0 ∨
      (kindErrsOf (normalizeEntry e)).length = 1 := by
    rcases kindErrs_cases (normalizeEntry e) with h | h | h | h | h <;> simp [h]
  unfold validateSpamEntry
  simp only [hne, Bool.false_eq_true, if_false, hlen0, hnlt, if_false,
    dangerErrsOf, hdanger, if_true]
  refine ⟨by simp, rfl, ?_, ?_⟩
  · rw [List.singleton_append, List.count_cons_self, hcount]
  · rcases hlenk with h | h <;> simp [h]

/-- C6 witness: `javascript:alert(2)` is denylisted; the validator rejects
it with the dangerous-content error first and at most one more error. -/
theorem c6_witness :
    (validateSpamEntry (("javascript:alert(2)").toList)).isValid = false ∧
    (validateSpamEntry (("javascript:alert(2)").toList)).errors =
      msgDanger :: kindErrsOf (normalizeEntry (("javascript:alert(2)").toList)) ∧
    (validateSpamEntry (("javascript:alert(2)").toList)).errors.count msgDanger = 1 ∧
    ((validateSpamEntry (("javascript:alert(2)").toList)).errors.length = 1 ∨
     (validateSpamEntry (("javascript:alert(2)").toList)).errors.length = 2) :=
  c6_spec (("javascript:alert(2)").toList) (by decide) (by decide)
    (by decide) (by decide)

/-! ## Idempotence of normalization (C10) -/

theorem toNat_ofNat_lower (n : Nat) (h1 : 97 ≤ n) (h2 : n ≤ 122) :
    (Char.ofNat n).toNat = n := by
  interval_cases n <;> decide

theorem lowerChar_of_not_upper {c : Char}
    (h : ¬(65 ≤ c.toNat ∧ c.toNat ≤ 90)) : lowerChar c = c := by
  unfold lowerChar
  rw [if_neg h]

theorem lowerChar_idem (c : Char) : lowerChar (lowerChar c) = lowerChar c := by
  by_cases h : 65 ≤ c.toNat ∧ c.toNat ≤ 90
  · have h1 : lowerChar c = Char.ofNat (c.toNat + 32) := by
      unfold lowerChar
      rw [if_pos h]
    have ht : (Char.ofNat (c.toNat + 32)).toNat = c.toNat + 32 :=
      toNat_ofNat_lower _ (by omega) (by omega)
    rw [h1]
    apply lowerChar_of_not_upper
    rw [ht]
    omega
  · rw [lowerChar_of_not_upper h, lowerChar_of_not_upper h]

theorem isWS_lowerChar (c : Char) : isWS (lowerChar c) = isWS c := by
  by_cases h : 65 ≤ c.toNat ∧ c.toNat ≤ 90
  · have h1 : lowerChar c = Char.ofNat (c.toNat + 32) := by
      unfold lowerChar
      rw [if_pos h]
    have ht : (Char.ofNat (c.toNat + 32)).toNat = c.toNat + 32 :=
      toNat_ofNat_lower _ (by omega) (by omega)
    have hA : isWS (Char.ofNat (c.toNat + 32)) = false := by
      unfold isWS
      rw [ht]
      simp only [Bool.or_eq_false_iff, decide_eq_false_iff_not]
      omega
    have hB : isWS c = false := by
      unfold isWS
      simp only [Bool.or_eq_false_iff, decide_eq_false_iff_not]
      omega
    rw [h1, hA, hB]
  · rw [lowerChar_of_not_upper h]

theorem dropWhile_append_singleton {p : Char → Bool} {a : Char}
    (h : p a = false) (xs : Str) :
    (xs ++ [a]).dropWhile p = xs.dropWhile p ++ [a] := by
  induction xs with
  | nil => simp [List.dropWhile_cons, h]
  | cons x t ih =>
    by_cases hx : p x
    · simp [List.cons_append, List.dropWhile_cons, hx, ih]
    · simp [List.cons_append, List.dropWhile_cons, hx]

theorem rdropWhile_cons_neg {p : Char → Bool} {c : Char} (h : p c = false)
    (t : Str) : (c :: t).rdropWhile p = c :: t.rdropWhile p := by
  unfold List.rdropWhile
  rw [List.reverse_cons, dropWhile_append_singleton h, List.reverse_append]
  rfl

theorem head_false_of_dropWhile_self {p : Char → Bool} {c : Char} {t : Str}
    (h : List.dropWhile p (c :: t) = c :: t) : p c = false := by
  have h0 := List.dropWhile_eq_self_iff.mp h (by simp)
  simpa using h0

theorem dropWhile_rdropWhile_self {p : Char → Bool} {l : Str}
    (h : l.dropWhile p = l) : (l.rdropWhile p).dropWhile p = l.rdropWhile p := by
  cases l with
  | nil => simp
  | cons c t =>
    have hc : p c = false := head_false_of_dropWhile_self h
    rw [rdropWhile_cons_neg hc, List.dropWhile_cons, if_neg (by simp [hc])]

theorem trim_dropWhile_self (s : Str) :
    (trimStr s).dropWhile isWS = trimStr s := by
  unfold trimStr
  exact dropWhile_rdropWhile_self (List.dropWhile_idempotent _ _)

theorem trim_rdropWhile_self (s : Str) :
    (trimStr s).rdropWhile isWS = trimStr s := by
  unfold trimStr
  exact List.rdropWhile_idempotent _ _

theorem trim_trim (s : Str) : trimStr (trimStr s) = trimStr s := by
  show ((trimStr s).dropWhile isWS).rdropWhile isWS = trimStr s
  rw [trim_dropWhile_self, trim_rdropWhile_self]

theorem dropWhile_map_comm {f : Char → Char} {p : Char → Bool}
    (hf : ∀ c, p (f c) = p c) (l : Str) :
    (l.map f).dropWhile p = (l.dropWhile p).map f := by
  induction l with
  | nil => rfl
  | cons c t ih =>
    rw [List.map_cons, List.dropWhile_cons, List.dropWhile_cons, hf c]
    by_cases h : p c
    · rw [if_pos h, if_pos h, ih]
    · rw [if_neg h, if_neg h, List.map_cons]

theorem rdropWhile_map_comm {f : Char → Char} {p : Char → Bool}
    (hf : ∀ c, p (f c) = p c) (l : Str) :
    (l.map f).rdropWhile p = (l.rdropWhile p).map f := by
  unfold List.rdropWhile
  rw [← List.map_reverse, dropWhile_map_comm hf, ← List.map_reverse]

theorem trim_map_comm {f : Char → Char} (hf : ∀ c, isWS (f c) = isWS c)
    (s : Str) : trimStr (s.map f) = (trimStr s).map f := by
  unfold trimStr
  rw [dropWhile_map_comm hf, rdropWhile_map_comm hf]

theorem lower_lower (s : Str) : lowerStr (lowerStr s) = lowerStr s := by
  unfold lowerStr
  rw [List.map_map]
  exact congrFun (congrArg List.map (funext lowerChar_idem)) s

theorem normCore_trim (s : Str) :
    trimStr (lowerStr (trimStr s)) = lowerStr (trimStr s) := by
  show trimStr ((trimStr s).map lowerChar) = lowerStr (trimStr s)
  rw [trim_map_comm isWS_lowerChar, trim_trim]
  rfl

theorem normCore_dropWhile (s : Str) :
    (lowerStr (trimStr s)).dropWhile isWS = lowerStr (trimStr s) := by
  unfold lowerStr
  rw [dropWhile_map_comm isWS_lowerChar, trim_dropWhile_self]

theorem normCore_rdropWhile (s : Str) :
    (lowerStr (trimStr s)).rdropWhile isWS = lowerStr (trimStr s) := by
  unfold lowerStr
  rw [rdropWhile_map_comm isWS_lowerChar, trim_rdropWhile_self]

theorem startsWith_false_of_not_contains {n : Str}
    (h : n.contains '@' = false) : startsWithChar '@' n = false := by
  cases n with
  | nil => rfl
  | cons c t =>
    show (c == '@') = false
    by_contra hc
    rw [Bool.not_eq_false] at hc
    have hce : c = '@' := by simpa using hc
    rw [List.contains_cons] at h
    subst hce
    simp at h

theorem normalizeEntry_idem (s : Str) :
    normalizeEntry (normalizeEntry s) = normalizeEntry s := by
  by_cases hs : s.isEmpty
  · rw [show normalizeEntry s = [] from by unfold normalizeEntry; rw [if_pos hs]]
    rfl
  · set n := lowerStr (trimStr s) with hn
    have Hl : lowerStr n = n := lower_lower _
    have Hd : n.dropWhile isWS = n := normCore_dropWhile s
    have Hrd : n.rdropWhile isWS = n := normCore_rdropWhile s
    have Ht : trimStr n = n := by
      show (n.dropWhile isWS).rdropWhile isWS = n
      rw [Hd, Hrd]
    have Hr : normalizeEntry s = normBody n := by
      unfold normalizeEntry
      rw [if_neg hs]
    rw [Hr]
    unfold normBody
    by_cases h1 : (n.contains '@' && !startsWithChar '@' n) = true
    · rw [if_pos h1]
      have h1' := h1
      rw [Bool.and_eq_true] at h1'
      have hne : n.isEmpty = false := by
        cases hn2 : n with
        | nil =>
          have hcontains := h1'.1
          rw [hn2] at hcontains
          simp at hcontains
        | cons c t => rfl
      unfold normalizeEntry
      rw [if_neg (by simp [hne]), Ht, Hl]
      unfold normBody
      rw [if_pos h1]
    · rw [if_neg h1]
      by_cases h2 : (n.contains '.' && !n.contains '@') = true
      · rw [if_pos h2]
        have h2' := h2
        rw [Bool.and_eq_true] at h2'
        have hnoat : n.contains '@' = false := by
          have := h2'.2
          rwa [Bool.not_eq_true'] at this
        have hstart : startsWithChar '@' n = false :=
          startsWith_false_of_not_contains hnoat
        rw [if_neg (by simp [hstart])]
        have hat : isWS '@' = false := by decide
        have hdw : List.dropWhile isWS ('@' :: n) = '@' :: n := by
          rw [List.dropWhile_cons, if_neg (by simp [hat])]
        have hrd : List.rdropWhile isWS ('@' :: n) = '@' :: n := by
          rw [rdropWhile_cons_neg hat, Hrd]
        have htrim : trimStr ('@' :: n) = '@' :: n := by
          show (List.dropWhile isWS ('@' :: n)).rdropWhile isWS = _
          rw [hdw, hrd]
        have hlow : lowerStr ('@' :: n) = '@' :: n := by
          show lowerChar '@' :: lowerStr n = _
          rw [show lowerChar '@' = '@' from by decide, Hl]
        have hcont : ('@' :: n).contains '@' = true := by
          rw [List.contains_cons]
          simp
        have hstart2 : startsWithChar '@' ('@' :: n) = true := rfl
        unfold normalizeEntry
        rw [if_neg (by simp), htrim, hlow]
        unfold normBody
        rw [hcont, hstart2]
        simp
      · rw [if_neg h2]
        by_cases hne : n.isEmpty
        · rw [show n = [] from List.isEmpty_iff.mp hne]
          rfl
        · unfold normalizeEntry
          rw [if_neg hne, Ht, Hl]
          unfold normBody
          rw [if_neg h1, if_neg h2]

/-- C10: for every string the validator classifies as Email (it is valid and
its normalized form contains `@`, the validator's email criterion),
normalization is idempotent — in fact `normalizeEntry` is idempotent on all
strings. -/
theorem c10_spec (e : Str)
    (hvalid : (validateSpamEntry e).isValid = true)
    (hemail : (normalizeEntry e).contains '@' = true) :
    normalizeEntry (normalizeEntry e) = normalizeEntry e :=
  normalizeEntry_idem e

/-- C10 witness: `User@Example.com` is classified as Email and normalizing
twice equals normalizing once. -/
theorem c10_witness :
    normalizeEntry (normalizeEntry (("User@Example.com").toList)) =
      normalizeEntry (("User@Example.com").toList) :=
  c10_spec (("User@Example.com").toList) (by decide) (by decide)
